import Mathlib

/-!
# Verification of the Zynq-7000 AMP debugger sources

Shallow embedding of the ELF32 coredump builder
(`src/platforms/zynq_amp/coredump.c`), the crash watchdog
(`src/platforms/zynq_amp/crash_watchdog.c`) and the Cortex-A9 external
debug engine (`src/target/cortexa.c`), together with proofs of the
spec's claims about them.

Machine integers are modelled as `Nat`; all the bit manipulation in the
sources stays within 32 bits, and explicit masks (`&&& (2^32 - 4)` for
`& ~3`, etc.) are written wherever the C truncates.  Byte buffers are
`List Nat` (each element one byte).  MMIO traffic is made explicit:
register writes become elements of a trace list, and values the hardware
would supply (the DBGDTRTX word stream, the PAR translation result, the
DBGDSCR status word) become function arguments.
-/

namespace BlackMagic

/-! ## ELF32 coredump builder (coredump.c) -/

namespace Coredump

/-- ELF program-header type for loadable segments. -/
def PT_LOAD : Nat := 1

/-- ELF program-header type for the note segment. -/
def PT_NOTE : Nat := 4

/-- sizeof(struct Elf32_Ehdr): standard ELF32 header size, 52 bytes
(the spec's scenario 3 fixes ehsize = 52). -/
def ELF32_EHSIZE : Nat := 52

/-- sizeof(struct Elf32_Phdr): standard ELF32 program header, 32 bytes
(the spec's scenario 3 fixes phentsize = 32). -/
def ELF32_PHENTSIZE : Nat := 32

/-- MAX_SEGMENTS from coredump.c. -/
def MAX_SEGMENTS : Nat := 10

/-- The fields of struct Elf32_Phdr that coredump.c assigns
(p_paddr, p_flags, p_align stay zero and are omitted). -/
structure Phdr where
  p_type : Nat
  p_offset : Nat
  p_vaddr : Nat
  p_filesz : Nat
  p_memsz : Nat
deriving DecidableEq, Repr

/-- struct corefile: ehdr fields that coredump.c assigns, the program
headers paired with their segment source bytes (`phdr[]`/`segments[]`,
kept in one list; `e_phnum` is the list length), and the growable note
blob (`note`/`note_size`, the size being the list length). -/
structure Corefile where
  e_machine : Nat
  e_phoff : Nat
  e_ehsize : Nat
  e_phentsize : Nat
  phdrs : List (Phdr × List Nat)
  note : List Nat
deriving DecidableEq, Repr

/-- core_new: calloc'd corefile with type=CORE, version=1,
e_ehsize = e_phoff = sizeof(Ehdr), e_phentsize = sizeof(Phdr). -/
def core_new (machine : Nat) : Corefile :=
  { e_machine := machine
    e_phoff := ELF32_EHSIZE
    e_ehsize := ELF32_EHSIZE
    e_phentsize := ELF32_PHENTSIZE
    phdrs := []
    note := [] }

/-- core_add_ph: append a program header at index e_phnum with
p_memsz = p_filesz and record the segment source pointer. -/
def core_add_ph (cf : Corefile) (ptype pvaddr : Nat) (data : List Nat)
    (filesz : Nat) : Corefile :=
  { cf with
    phdrs := cf.phdrs ++
      [({ p_type := ptype, p_offset := 0, p_vaddr := pvaddr,
          p_filesz := filesz, p_memsz := filesz }, data)] }

/-- pad from coredump.c: round up to a multiple of 4. -/
def pad (x : Nat) : Nat := ((x + 3) / 4) * 4

/-- Little-endian bytes of a 32-bit word. -/
def u32le (w : Nat) : List Nat :=
  [w % 2 ^ 8, w / 2 ^ 8 % 2 ^ 8, w / 2 ^ 16 % 2 ^ 8, w / 2 ^ 24 % 2 ^ 8]

/-- Zero-pad a byte list on the right up to length n (the memset 0 in
core_note_add). -/
def zero_pad (xs : List Nat) (n : Nat) : List Nat :=
  xs ++ List.replicate (n - xs.length) 0

/-- One note record as laid out by core_note_add: 12-byte
{namesz, descsz, type} header, NUL-terminated name padded to 4 bytes,
desc padded to 4 bytes.  `name` is the name without its NUL. -/
def note_entry (name : List Nat) (ty : Nat) (data : List Nat) : List Nat :=
  u32le (name.length + 1) ++ u32le data.length ++ u32le ty ++
    zero_pad (name ++ [0]) (pad (name.length + 1)) ++
    zero_pad data (pad data.length)

/-- core_note_add: grow the note blob by one record. -/
def core_note_add (cf : Corefile) (name : List Nat) (ty : Nat)
    (data : List Nat) : Corefile :=
  { cf with note := cf.note ++ note_entry name ty data }

/-- The builder calls a caller may make between core_new and core_dump. -/
inductive CoreOp
  | addPh (ptype pvaddr : Nat) (data : List Nat) (filesz : Nat)
  | noteAdd (name : List Nat) (ty : Nat) (data : List Nat)
deriving DecidableEq, Repr

/-- The p_type recorded by an op, when the op is a core_add_ph. -/
def CoreOp.phType : CoreOp → Option Nat
  | .addPh ty _ _ _ => some ty
  | .noteAdd _ _ _ => none

def applyOp (cf : Corefile) : CoreOp → Corefile
  | .addPh ty va data fsz => core_add_ph cf ty va data fsz
  | .noteAdd name ty data => core_note_add cf name ty data

/-- A corefile built from core_new by a sequence of calls. -/
def build (machine : Nat) (ops : List CoreOp) : Corefile :=
  ops.foldl applyOp (core_new machine)

/-- The p_offset rewrite loop of core_dump: assign offsets from a
running cursor, advancing by p_filesz. -/
def assign_offsets (offset : Nat) : List (Phdr × List Nat) → List (Phdr × List Nat)
  | [] => []
  | (ph, seg) :: rest =>
      ({ ph with p_offset := offset }, seg) ::
        assign_offsets (offset + ph.p_filesz) rest

/-- core_dump: append the PT_NOTE header for the note blob, then emit
with p_offset assigned from the cursor starting at
e_ehsize + e_phentsize * e_phnum.  The result describes the written
file: ehdr fields plus the program headers (in file order) paired with
the segment bytes written after them. -/
def core_dump (cf : Corefile) : Corefile :=
  let cf1 := core_add_ph cf PT_NOTE 0 cf.note cf.note.length
  { cf1 with
    phdrs := assign_offsets
      (cf1.e_ehsize + cf1.e_phentsize * cf1.phdrs.length) cf1.phdrs }

/-- Sum of the p_filesz fields of a header list. -/
def sumFilesz (l : List (Phdr × List Nat)) : Nat :=
  (l.map fun p => p.1.p_filesz).sum

/-! ### zynq_amp_core_dump VFP extraction (claim C2)

`uint32_t regs[18]` is a 72-byte buffer.  The C computes
`regs + 18 * sizeof(uint32_t)` with uint32_t pointer arithmetic, i.e.
it advances by 72 *elements* = 288 bytes, and then memcpys 4 bytes
(the supposed FPSCR) from there and 32 doubles = 256 bytes (the
supposed d-registers) from element 76 = byte 304. -/

/-- Byte length of the `uint32_t regs[18]` buffer. -/
def regs_buf_bytes : Nat := 18 * 4

/-- Source byte offset of the `memcpy(&fregs.sr, regs + 18*sizeof(uint32_t), ...)`:
18*4 uint32_t elements of 4 bytes each. -/
def vfp_sr_src_off : Nat := 18 * 4 * 4

/-- Source byte offset of the `memcpy(&fregs.d, regs + 19*sizeof(uint32_t), ...)`. -/
def vfp_d_src_off : Nat := 19 * 4 * 4

/-- Length of the d-register memcpy: 32 doubles. -/
def vfp_d_src_len : Nat := 32 * 8

/-- A memcpy source region of `len` bytes at byte offset `off` of a
buffer; `none` when any byte lies outside the buffer. -/
def memcpy_src (buf : List Nat) (off len : Nat) : Option (List Nat) :=
  if off + len ≤ buf.length then some ((buf.drop off).take len) else none

/-- The bytes zynq_amp_core_dump reads for fregs.sr. -/
def zynq_vfp_sr_bytes (regsBytes : List Nat) : Option (List Nat) :=
  memcpy_src regsBytes vfp_sr_src_off 4

/-- The bytes zynq_amp_core_dump reads for fregs.d. -/
def zynq_vfp_d_bytes (regsBytes : List Nat) : Option (List Nat) :=
  memcpy_src regsBytes vfp_d_src_off vfp_d_src_len

end Coredump

/-! ## Cortex-A debug engine (cortexa.c) -/

namespace Cortexa

def M32 : Nat := 2 ^ 32

/-! DBGDSCR bits. -/

def DBGDSCR_HALTED : Nat := 1
def DBGDSCR_MOE_MASK : Nat := 0xf <<< 2
def DBGDSCR_MOE_HALT_REQ : Nat := 0x0 <<< 2
def DBGDSCR_MOE_WATCH_ASYNC : Nat := 0x2 <<< 2
def DBGDSCR_MOE_WATCH_SYNC : Nat := 0xa <<< 2

/-! DBGBCR fields. -/

def DBGBCR_BAS_ANY : Nat := 0xf <<< 5
def DBGBCR_BAS_LOW_HW : Nat := 0x3 <<< 5
def DBGBCR_BAS_HIGH_HW : Nat := 0xc <<< 5
def DBGBCR_EN : Nat := 1

/-! DBGWCR fields. -/

def DBGWCR_LSC_LOAD : Nat := 0b01 <<< 3
def DBGWCR_LSC_STORE : Nat := 0b10 <<< 3
def DBGWCR_LSC_ANY : Nat := 0b11 <<< 3
def DBGWCR_BAS_BYTE : Nat := 0b0001 <<< 5
def DBGWCR_BAS_HALFWORD : Nat := 0b0011 <<< 5
def DBGWCR_BAS_WORD : Nat := 0b1111 <<< 5
def DBGWCR_PAC_ANY : Nat := 0b11 <<< 1
def DBGWCR_EN : Nat := 1

/-- enum target_halt_reason. -/
inductive TargetHaltReason
  | running
  | error
  | request
  | stepping
  | watchpoint
  | fault
  | breakpoint
deriving DecidableEq, Repr

/-- enum target_breakwatch (the kinds cortexa.c handles). -/
inductive BwType
  | breakSoft
  | breakHard
  | watchWrite
  | watchRead
  | watchAccess
deriving DecidableEq, Repr

/-- struct breakwatch fields the Cortex-A driver reads. -/
structure Breakwatch where
  type : BwType
  addr : Nat
  size : Nat
deriving DecidableEq, Repr

/-- The filter in the cortexa_halt_poll watchpoint loop: the C skips
entries that are neither WATCH_READ, WATCH_WRITE nor WATCH_ACCESS. -/
def isWatchType (ty : BwType) : Bool :=
  ty == .watchRead || ty == .watchWrite || ty == .watchAccess

/-- The `for (bw = t->bw_list; bw; bw = bw->next)` loop of
cortexa_halt_poll: entered with reason = BREAKPOINT; the first
watch-type entry makes the reason WATCHPOINT and records its address in
*watch; a second watch-type entry collapses the reason back to
BREAKPOINT and breaks out. -/
def watch_scan : List Breakwatch → TargetHaltReason → Option Nat →
    TargetHaltReason × Option Nat
  | [], reason, watch => (reason, watch)
  | bw :: rest, reason, watch =>
    if ¬ isWatchType bw.type then watch_scan rest reason watch
    else if reason = TargetHaltReason.watchpoint then
      (TargetHaltReason.breakpoint, watch)
    else watch_scan rest TargetHaltReason.watchpoint (some bw.addr)

/-- Outcome of the TRY_CATCH-protected `apb_read(t, DBGDSCR)` in
cortexa_halt_poll: a value, or one of the two caught exceptions. -/
inductive ApbReadOutcome
  | ok (dbgdscr : Nat)
  | timeout
  | busError
deriving DecidableEq, Repr

/-- Everything cortexa_halt_poll produces or mutates: the returned
reason, the *watch output parameter, whether cortexa_regs_read_internal
ran, whether target_list_free ran, and whether the DBGDSCR write that
re-enables ITREN was issued. -/
structure HaltPollResult where
  reason : TargetHaltReason
  watch : Option Nat
  regsRead : Bool
  listFreed : Bool
  itrenRestored : Bool
deriving DecidableEq, Repr

/-- The Method-Of-Entry decode switch of cortexa_halt_poll (reached
only when the HALTED bit is set). -/
def halt_decode (dbgdscr : Nat) (bwList : List Breakwatch)
    (watch : Option Nat) : TargetHaltReason × Option Nat :=
  if dbgdscr &&& DBGDSCR_MOE_MASK = DBGDSCR_MOE_HALT_REQ then
    (TargetHaltReason.request, watch)
  else if dbgdscr &&& DBGDSCR_MOE_MASK = DBGDSCR_MOE_WATCH_ASYNC ∨
      dbgdscr &&& DBGDSCR_MOE_MASK = DBGDSCR_MOE_WATCH_SYNC then
    watch_scan bwList TargetHaltReason.breakpoint watch
  else (TargetHaltReason.breakpoint, watch)

/-- cortexa_halt_poll.  `outcome` is what the protected DBGDSCR read
produced; `bwList` is the host's t->bw_list; `watch` the value behind
the *watch pointer on entry. -/
def cortexa_halt_poll (outcome : ApbReadOutcome) (bwList : List Breakwatch)
    (watch : Option Nat) : HaltPollResult :=
  match outcome with
  | .busError =>
    { reason := .error, watch := watch, regsRead := false,
      listFreed := true, itrenRestored := false }
  | .timeout =>
    { reason := .running, watch := watch, regsRead := false,
      listFreed := false, itrenRestored := false }
  | .ok dbgdscr =>
    if dbgdscr &&& DBGDSCR_HALTED = 0 then
      { reason := .running, watch := watch, regsRead := false,
        listFreed := false, itrenRestored := false }
    else
      { reason := (halt_decode dbgdscr bwList watch).1
        watch := (halt_decode dbgdscr bwList watch).2
        regsRead := true
        listFreed := false
        itrenRestored := true }

/-! ### Slow memory read -/

/-- Little-endian bytes of one 32-bit word, as memcpy on the
little-endian ARM sees a uint32_t. -/
def word_le_bytes (w : Nat) : List Nat :=
  [w % 2 ^ 8, w / 2 ^ 8 % 2 ^ 8, w / 2 ^ 16 % 2 ^ 8, w / 2 ^ 24 % 2 ^ 8]

/-- What cortexa_slow_mem_read delivers: the bytes memcpy'd to dest and
the total number of DBGDTRTX reads issued. -/
structure SlowMemReadResult where
  dest : List Nat
  dtrtxReads : Nat
deriving DecidableEq, Repr

/-- cortexa_slow_mem_read.  `stream` is the sequence of words successive
DBGDTRTX reads return; `sdabort` is the DBGDSCR.SDABORT_L bit observed
after the transfer (when clear, one further DBGDTRTX drain read is
issued).  The C reads `words = (len + (src & 3) + 3) / 4` words into
`dest32` after one discarded read, then memcpys `len` bytes from byte
offset `src & 3` of that buffer. -/
def cortexa_slow_mem_read (src len : Nat) (stream : List Nat)
    (sdabort : Bool) : SlowMemReadResult :=
  let words := (len + (src &&& 3) + 3) / 4
  let dest32 := (stream.drop 1).take words
  let bytes := (dest32.map word_le_bytes).flatten
  { dest := (bytes.drop (src &&& 3)).take len
    dtrtxReads := 1 + words + (if sdabort then 0 else 1) }

/-! ### Breakpoints and watchpoints -/

/-- bp_bas from cortexa.c. -/
def bp_bas (addr : Nat) (len : Nat) : Nat :=
  if len = 4 then DBGBCR_BAS_ANY
  else if addr &&& 2 ≠ 0 then DBGBCR_BAS_HIGH_HW
  else DBGBCR_BAS_LOW_HW

/-- The PA va_to_pa computes from the PAR value the hardware returns:
`(par & ~0xfff) | (va & 0xfff)` in 32 bits. -/
def va_to_pa_result (par va : Nat) : Nat :=
  (par &&& (M32 - 0x1000)) ||| (va &&& 0xfff)

/-- The slot-search loop `for (i = 0; i < max; i++) if (!(mask & (1 << i))) break;`
with `fuel = max - i` remaining iterations; lands on `max` when every
slot is taken. -/
def find_free_from (mask i : Nat) : Nat → Nat
  | 0 => i
  | fuel + 1 =>
    if mask.testBit i then find_free_from mask (i + 1) fuel else i

/-- First free slot index below `max`, or `max` when none is free. -/
def find_free_slot (mask max : Nat) : Nat :=
  find_free_from mask 0 max

/-- The fields of struct cortexa_priv that cortexa_breakwatch_set
touches. -/
structure CortexaPriv where
  hw_breakpoint_max : Nat
  hw_breakpoint_mask : Nat
  bcr0 : Nat
  bvr0 : Nat
  hw_watchpoint_max : Nat
  hw_watchpoint_mask : Nat
  mmu_fault : Bool
deriving DecidableEq, Repr

/-- One debug-register write issued through apb_write. -/
inductive DbgWrite
  | bvr (i v : Nat)
  | bcr (i v : Nat)
  | wvr (i v : Nat)
  | wcr (i v : Nat)
deriving DecidableEq, Repr

/-- Result of cortexa_breakwatch_set: the return value, the updated
priv state, the value stored into bw->reserved[0] (if any) and the
BVR/BCR/WVR/WCR writes issued, in program order. -/
structure BwSetResult where
  ret : Int
  priv : CortexaPriv
  reserved0 : Option Nat
  writes : List DbgWrite
deriving DecidableEq, Repr

/-- The size → BAS switch of the watchpoint branch (`default:` returns
-1 in the C, modelled as `none`). -/
def wcr_bas_of_size (size : Nat) : Option Nat :=
  match size with
  | 1 => some DBGWCR_BAS_BYTE
  | 2 => some DBGWCR_BAS_HALFWORD
  | 4 => some DBGWCR_BAS_WORD
  | _ => none

/-- The type → LSC switch of the watchpoint branch (`default:` returns
-1 in the C, modelled as `none`; unreachable for the three watch
kinds). -/
def wcr_lsc_of_type (ty : BwType) : Option Nat :=
  match ty with
  | .watchWrite => some DBGWCR_LSC_STORE
  | .watchRead => some DBGWCR_LSC_LOAD
  | .watchAccess => some DBGWCR_LSC_ANY
  | _ => none

/-- cortexa_breakwatch_set.  `par` is the PAR value the hardware
returns to the embedded va_to_pa call (used only on the hard-breakpoint
path).  TARGET_BREAK_SOFT falls through to the TARGET_BREAK_HARD code
in the C (its own body is commented out). -/
def cortexa_breakwatch_set (priv : CortexaPriv) (bw : Breakwatch)
    (par : Nat) : BwSetResult :=
  match bw.type with
  | .breakSoft | .breakHard =>
    if bw.size ≠ 4 ∧ bw.size ≠ 2 then
      { ret := -1, priv := priv, reserved0 := none, writes := [] }
    else
      let i := find_free_slot priv.hw_breakpoint_mask priv.hw_breakpoint_max
      if i = priv.hw_breakpoint_max then
        { ret := -1, priv := priv, reserved0 := none, writes := [] }
      else
        let addr := va_to_pa_result par bw.addr
        let bcr := bp_bas addr bw.size ||| DBGBCR_EN
        { ret := 0
          priv := { priv with
            hw_breakpoint_mask := priv.hw_breakpoint_mask ||| (1 <<< i)
            -- va_to_pa latches mmu_fault when PAR.F (bit 0) is set
            mmu_fault := priv.mmu_fault || (par &&& 1 != 0)
            -- slot 0's programmed values are cached for the step path
            bcr0 := if i = 0 then bcr else priv.bcr0
            bvr0 := if i = 0 then addr &&& (M32 - 4) else priv.bvr0 }
          reserved0 := some i
          writes := [.bvr i (addr &&& (M32 - 4)), .bcr i bcr] }
  | .watchWrite | .watchRead | .watchAccess =>
    let i := find_free_slot priv.hw_watchpoint_mask priv.hw_watchpoint_max
    if i = priv.hw_watchpoint_max then
      { ret := -1, priv := priv, reserved0 := none, writes := [] }
    else
      let priv1 := { priv with
        hw_watchpoint_mask := priv.hw_watchpoint_mask ||| (1 <<< i) }
      match wcr_bas_of_size bw.size with
      | none => { ret := -1, priv := priv1, reserved0 := some i, writes := [] }
      | some bas =>
        match wcr_lsc_of_type bw.type with
        | none => { ret := -1, priv := priv1, reserved0 := some i, writes := [] }
        | some lsc =>
          let wcr := (DBGWCR_PAC_ANY ||| DBGWCR_EN) |||
            (bas <<< (bw.addr &&& 3)) ||| lsc
          { ret := 0
            priv := priv1
            reserved0 := some i
            writes := [.wcr i wcr, .wvr i (bw.addr &&& (M32 - 4))] }

end Cortexa

/-! ## Crash watchdog (crash_watchdog.c) -/

namespace Watchdog

open Cortexa

/-- The externally visible calls crash_watchdog_poll makes, in order. -/
inductive WatchdogAction
  | attach
  | coreDump
  | targetReset
  | haltResume (step : Bool)
deriving DecidableEq, Repr

/-- The switch on the target_halt_poll result in crash_watchdog_poll:
RUNNING and ERROR break out at once; WATCHPOINT, REQUEST and STEPPING
fall through to the FAULT/BREAKPOINT crash handling. -/
def crash_actions (reason : TargetHaltReason) : List WatchdogAction :=
  match reason with
  | .running => []
  | .error => []
  | .watchpoint | .request | .stepping | .fault | .breakpoint =>
    [.coreDump, .targetReset, .haltResume false]

/-- crash_watchdog_poll: when no target is attached, attach and resume
first; then act on the halt reason. -/
def crash_watchdog_poll (attached : Bool) (reason : TargetHaltReason) :
    List WatchdogAction :=
  (if attached then [] else [.attach, .haltResume false]) ++
    crash_actions reason

end Watchdog

/-! ## Helper lemmas -/

namespace Cortexa

theorem find_free_from_bounds (mask : Nat) :
    ∀ fuel i, i ≤ find_free_from mask i fuel ∧
      find_free_from mask i fuel ≤ i + fuel := by
  intro fuel
  induction fuel with
  | zero => intro i; simp [find_free_from]
  | succ n ih =>
    intro i
    unfold find_free_from
    split
    · have h := ih (i + 1)
      omega
    · omega

theorem find_free_from_free (mask : Nat) :
    ∀ fuel i, find_free_from mask i fuel < i + fuel →
      mask.testBit (find_free_from mask i fuel) = false := by
  intro fuel
  induction fuel with
  | zero =>
    intro i h
    have h0 : find_free_from mask i 0 = i := rfl
    rw [h0] at h
    omega
  | succ n ih =>
    intro i
    unfold find_free_from
    split
    · intro h
      have := ih (i + 1)
      apply this
      omega
    · intro _
      simp_all

theorem find_free_from_lowest (mask : Nat) :
    ∀ fuel i j, i ≤ j → j < find_free_from mask i fuel →
      mask.testBit j = true := by
  intro fuel
  induction fuel with
  | zero =>
    intro i j hij hj
    have h0 : find_free_from mask i 0 = i := rfl
    rw [h0] at hj
    omega
  | succ n ih =>
    intro i j hij
    unfold find_free_from
    split
    · intro hj
      rcases Nat.eq_or_lt_of_le hij with h | h
      · subst h; assumption
      · exact ih (i + 1) j h hj
    · intro hj; omega

end Cortexa

namespace Coredump

theorem sumFilesz_nil : sumFilesz [] = 0 := rfl

theorem sumFilesz_cons (p : Phdr × List Nat) (l : List (Phdr × List Nat)) :
    sumFilesz (p :: l) = p.1.p_filesz + sumFilesz l := by
  simp [sumFilesz]

theorem sumFilesz_take_succ (l : List (Phdr × List Nat)) (i : Nat)
    (u : Phdr × List Nat) (h : l[i]? = some u) :
    sumFilesz (l.take (i + 1)) = sumFilesz (l.take i) + u.1.p_filesz := by
  induction l generalizing i with
  | nil => simp at h
  | cons a rest ih =>
    cases i with
    | zero =>
      simp only [List.getElem?_cons_zero, Option.some.injEq] at h
      subst h
      simp [sumFilesz]
    | succ n =>
      simp only [List.getElem?_cons_succ] at h
      simp only [List.take_succ_cons, sumFilesz_cons, ih n h]
      omega

theorem foldl_applyOp_fields (ops : List CoreOp) (cf : Corefile) :
    (ops.foldl applyOp cf).e_phoff = cf.e_phoff ∧
    (ops.foldl applyOp cf).e_ehsize = cf.e_ehsize ∧
    (ops.foldl applyOp cf).e_phentsize = cf.e_phentsize := by
  induction ops generalizing cf with
  | nil => exact ⟨rfl, rfl, rfl⟩
  | cons op rest ih =>
    rw [List.foldl_cons]
    have hop : (applyOp cf op).e_phoff = cf.e_phoff ∧
        (applyOp cf op).e_ehsize = cf.e_ehsize ∧
        (applyOp cf op).e_phentsize = cf.e_phentsize := by
      cases op <;> exact ⟨rfl, rfl, rfl⟩
    have h := ih (applyOp cf op)
    exact ⟨h.1.trans hop.1, h.2.1.trans hop.2.1, h.2.2.trans hop.2.2⟩

theorem foldl_applyOp_memsz (ops : List CoreOp) (cf : Corefile)
    (h : ∀ p ∈ cf.phdrs, p.1.p_filesz = p.1.p_memsz) :
    ∀ p ∈ (ops.foldl applyOp cf).phdrs, p.1.p_filesz = p.1.p_memsz := by
  induction ops generalizing cf with
  | nil => exact h
  | cons op rest ih =>
    rw [List.foldl_cons]
    apply ih
    cases op with
    | addPh ty va data fsz =>
      intro p hp
      simp only [applyOp, core_add_ph] at hp
      rcases List.mem_append.mp hp with h1 | h1
      · exact h p h1
      · rw [List.mem_singleton.mp h1]
    | noteAdd name ty data =>
      intro p hp
      exact h p hp

theorem foldl_applyOp_types (ops : List CoreOp) (cf : Corefile)
    (hops : ∀ op ∈ ops, op.phType ≠ some PT_NOTE)
    (h : ∀ p ∈ cf.phdrs, p.1.p_type ≠ PT_NOTE) :
    ∀ p ∈ (ops.foldl applyOp cf).phdrs, p.1.p_type ≠ PT_NOTE := by
  induction ops generalizing cf with
  | nil => exact h
  | cons op rest ih =>
    rw [List.foldl_cons]
    apply ih
    · intro op' hop'
      exact hops op' (List.mem_cons_of_mem _ hop')
    cases op with
    | addPh ty va data fsz =>
      intro p hp
      simp only [applyOp, core_add_ph] at hp
      rcases List.mem_append.mp hp with h1 | h1
      · exact h p h1
      · rw [List.mem_singleton.mp h1]
        intro hty
        exact hops _ (List.mem_cons_self _ _)
          (by simp only [CoreOp.phType, Option.some.injEq]; exact hty)
    | noteAdd name ty data =>
      intro p hp
      exact h p hp

theorem assign_offsets_length (off : Nat) (l : List (Phdr × List Nat)) :
    (assign_offsets off l).length = l.length := by
  induction l generalizing off with
  | nil => rfl
  | cons a rest ih =>
    obtain ⟨ph, seg⟩ := a
    simp [assign_offsets, ih]

theorem assign_offsets_append (off : Nat) (l1 l2 : List (Phdr × List Nat)) :
    assign_offsets off (l1 ++ l2)
      = assign_offsets off l1 ++ assign_offsets (off + sumFilesz l1) l2 := by
  induction l1 generalizing off with
  | nil => simp [assign_offsets, sumFilesz_nil]
  | cons a rest ih =>
    obtain ⟨ph, seg⟩ := a
    simp only [List.cons_append, assign_offsets, sumFilesz_cons,
      List.append_eq]
    rw [ih, ← Nat.add_assoc]

theorem assign_offsets_getElem (off : Nat) (l : List (Phdr × List Nat))
    (i : Nat) :
    (assign_offsets off l)[i]? = (l[i]?).map
      (fun p => ({ p.1 with p_offset := off + sumFilesz (l.take i) }, p.2)) := by
  induction l generalizing off i with
  | nil => simp [assign_offsets]
  | cons a rest ih =>
    obtain ⟨ph, seg⟩ := a
    cases i with
    | zero => simp [assign_offsets, sumFilesz_nil]
    | succ n =>
      simp only [assign_offsets, List.getElem?_cons_succ,
        List.take_succ_cons]
      rw [ih]
      have hf : (fun p : Phdr × List Nat =>
          ({ p.1 with p_offset := off + ph.p_filesz
              + sumFilesz (rest.take n) }, p.2))
          = (fun p : Phdr × List Nat =>
          ({ p.1 with p_offset := off
              + sumFilesz ((ph, seg) :: rest.take n) }, p.2)) := by
        funext q
        rw [sumFilesz_cons, Nat.add_assoc]
      rw [hf]

theorem assign_offsets_mem (off : Nat) (l : List (Phdr × List Nat))
    (p : Phdr × List Nat) (hp : p ∈ assign_offsets off l) :
    ∃ q ∈ l, p.1.p_type = q.1.p_type ∧ p.1.p_filesz = q.1.p_filesz ∧
      p.1.p_memsz = q.1.p_memsz ∧ p.2 = q.2 := by
  induction l generalizing off with
  | nil => simp [assign_offsets] at hp
  | cons a rest ih =>
    obtain ⟨ph, seg⟩ := a
    rcases List.mem_cons.mp hp with h1 | h1
    · subst h1
      exact ⟨(ph, seg), List.mem_cons_self _ _, rfl, rfl, rfl, rfl⟩
    · obtain ⟨q, hq, hf⟩ := ih (off + ph.p_filesz) h1
      exact ⟨q, List.mem_cons_of_mem _ hq, hf⟩

end Coredump

/-! ## Claim theorems -/

namespace Cortexa

theorem watch_scan_no_watch (l : List Breakwatch) (r : TargetHaltReason)
    (w : Option Nat) (h : l.filter (fun b => isWatchType b.type) = []) :
    watch_scan l r w = (r, w) := by
  induction l generalizing r w with
  | nil => rfl
  | cons bw rest ih =>
    rw [List.filter_cons] at h
    by_cases hb : isWatchType bw.type
    · simp [hb] at h
    · unfold watch_scan
      rw [if_pos (by simp [hb])]
      exact ih _ _ (by simpa [hb] using h)

theorem watch_scan_single (l : List Breakwatch) (w : Option Nat)
    (bw : Breakwatch)
    (h : l.filter (fun b => isWatchType b.type) = [bw]) :
    watch_scan l .breakpoint w = (.watchpoint, some bw.addr) := by
  induction l generalizing w with
  | nil => simp at h
  | cons a rest ih =>
    rw [List.filter_cons] at h
    by_cases ha : isWatchType a.type
    · rw [if_pos ha] at h
      have ha2 : a = bw ∧ rest.filter (fun b => isWatchType b.type) = [] := by
        simpa using h
      unfold watch_scan
      rw [if_neg (by simp [ha]), if_neg (by decide)]
      rw [watch_scan_no_watch rest _ _ ha2.2, ha2.1]
    · rw [if_neg ha] at h
      unfold watch_scan
      rw [if_pos (by simp [ha])]
      exact ih _ h

theorem watch_scan_from_watchpoint (l : List Breakwatch) (w : Option Nat)
    (h : l.filter (fun b => isWatchType b.type) ≠ []) :
    (watch_scan l .watchpoint w).1 = .breakpoint := by
  induction l generalizing w with
  | nil => simp at h
  | cons a rest ih =>
    by_cases ha : isWatchType a.type
    · unfold watch_scan
      rw [if_neg (by simp [ha]), if_pos rfl]
    · unfold watch_scan
      rw [if_pos (by simp [ha])]
      apply ih
      intro hc
      apply h
      rw [List.filter_cons, if_neg ha]
      exact hc

theorem watch_scan_multi (l : List Breakwatch) (w : Option Nat)
    (h : 2 ≤ (l.filter (fun b => isWatchType b.type)).length) :
    (watch_scan l .breakpoint w).1 = .breakpoint := by
  induction l generalizing w with
  | nil => simp at h
  | cons a rest ih =>
    rw [List.filter_cons] at h
    by_cases ha : isWatchType a.type
    · rw [if_pos ha] at h
      unfold watch_scan
      rw [if_neg (by simp [ha]), if_neg (by decide)]
      apply watch_scan_from_watchpoint
      apply List.length_pos.mp
      simp only [List.length_cons] at h
      omega
    · rw [if_neg ha] at h
      unfold watch_scan
      rw [if_pos (by simp [ha])]
      exact ih _ h

/-- Claim C4: cortexa_halt_poll with the HALTED bit set returns REQUEST
on MOE = HALT_REQ; on MOE = WATCH_ASYNC or WATCH_SYNC it returns
WATCHPOINT with the address of the single armed watch-kind entry
written to *watch, collapsing to BREAKPOINT when the watch-kind entry
count differs from one; any other MOE gives BREAKPOINT; and in all
these cases the register cache is read in. -/
theorem cortexa_halt_poll_moe_spec (dbgdscr : Nat)
    (bwList : List Breakwatch) (watch : Option Nat)
    (hH : ¬ dbgdscr &&& DBGDSCR_HALTED = 0) :
    (cortexa_halt_poll (.ok dbgdscr) bwList watch).regsRead = true ∧
    (dbgdscr &&& DBGDSCR_MOE_MASK = DBGDSCR_MOE_HALT_REQ →
      (cortexa_halt_poll (.ok dbgdscr) bwList watch).reason = .request) ∧
    ((dbgdscr &&& DBGDSCR_MOE_MASK = DBGDSCR_MOE_WATCH_ASYNC ∨
      dbgdscr &&& DBGDSCR_MOE_MASK = DBGDSCR_MOE_WATCH_SYNC) →
      (∀ bw, bwList.filter (fun b => isWatchType b.type) = [bw] →
        (cortexa_halt_poll (.ok dbgdscr) bwList watch).reason = .watchpoint ∧
        (cortexa_halt_poll (.ok dbgdscr) bwList watch).watch = some bw.addr) ∧
      ((bwList.filter (fun b => isWatchType b.type)).length ≠ 1 →
        (cortexa_halt_poll (.ok dbgdscr) bwList watch).reason
          = .breakpoint)) ∧
    ((dbgdscr &&& DBGDSCR_MOE_MASK ≠ DBGDSCR_MOE_HALT_REQ ∧
      dbgdscr &&& DBGDSCR_MOE_MASK ≠ DBGDSCR_MOE_WATCH_ASYNC ∧
      dbgdscr &&& DBGDSCR_MOE_MASK ≠ DBGDSCR_MOE_WATCH_SYNC) →
      (cortexa_halt_poll (.ok dbgdscr) bwList watch).reason
        = .breakpoint) := by
  have hunf : cortexa_halt_poll (.ok dbgdscr) bwList watch =
      { reason := (halt_decode dbgdscr bwList watch).1
        watch := (halt_decode dbgdscr bwList watch).2
        regsRead := true
        listFreed := false
        itrenRestored := true } := by
    simp only [cortexa_halt_poll]
    rw [if_neg hH]
  rw [hunf]
  refine ⟨rfl, ?_, ?_, ?_⟩
  · intro hmoe
    simp [halt_decode, hmoe]
  · intro hmoe
    have hne : ¬ dbgdscr &&& DBGDSCR_MOE_MASK = DBGDSCR_MOE_HALT_REQ := by
      rcases hmoe with h | h <;> rw [h] <;> decide
    have hdec : halt_decode dbgdscr bwList watch
        = watch_scan bwList .breakpoint watch := by
      unfold halt_decode
      rw [if_neg hne, if_pos hmoe]
    rw [hdec]
    constructor
    · intro bw hbw
      rw [watch_scan_single bwList watch bw hbw]
      exact ⟨rfl, rfl⟩
    · intro hlen
      rcases Nat.lt_or_ge (bwList.filter (fun b => isWatchType b.type)).length
          2 with h2 | h2
      · have h0 : (bwList.filter (fun b => isWatchType b.type)).length = 0 := by
          omega
        rw [watch_scan_no_watch bwList _ _ (List.length_eq_zero.mp h0)]
      · exact watch_scan_multi bwList watch h2
  · intro ⟨hn1, hn2, hn3⟩
    unfold halt_decode
    rw [if_neg hn1, if_neg (by tauto)]

/-- Witness for cortexa_halt_poll_moe_spec: DBGDSCR = 1 (halted,
MOE = HALT_REQ) gives REQUEST; DBGDSCR = 9 (halted, MOE = WATCH_ASYNC)
with a single armed write-watchpoint at 0x100 gives WATCHPOINT with
address 0x100. -/
theorem cortexa_halt_poll_moe_spec_witness :
    (cortexa_halt_poll (.ok 1) [] none).regsRead = true ∧
    (cortexa_halt_poll (.ok 1) [] none).reason = .request ∧
    (cortexa_halt_poll (.ok 9) [⟨.watchWrite, 0x100, 4⟩] none).reason
      = .watchpoint ∧
    (cortexa_halt_poll (.ok 9) [⟨.watchWrite, 0x100, 4⟩] none).watch
      = some 0x100 :=
  ⟨(cortexa_halt_poll_moe_spec 1 [] none (by decide)).1,
    (cortexa_halt_poll_moe_spec 1 [] none (by decide)).2.1 (by decide),
    ((cortexa_halt_poll_moe_spec 9 [⟨.watchWrite, 0x100, 4⟩] none
      (by decide)).2.2.1 (by decide)).1 ⟨.watchWrite, 0x100, 4⟩
      (by decide) |>.1,
    ((cortexa_halt_poll_moe_spec 9 [⟨.watchWrite, 0x100, 4⟩] none
      (by decide)).2.2.1 (by decide)).1 ⟨.watchWrite, 0x100, 4⟩
      (by decide) |>.2⟩

/-- Claim C9: the breakpoint byte-address-select function satisfies,
for every address a: bp_bas(a, 4) = 0x1E0; bp_bas(a, 2) = 0x60 when
a & 2 = 0 and 0x180 when a & 2 = 2 (the concrete instances
bp_bas(0x1000, 4), bp_bas(0x1000, 2), bp_bas(0x1002, 2) are in the
witness). -/
theorem bp_bas_spec (a : Nat) :
    bp_bas a 4 = 0x1E0 ∧
    (a &&& 2 = 0 → bp_bas a 2 = 0x60) ∧
    (a &&& 2 = 2 → bp_bas a 2 = 0x180) := by
  refine ⟨rfl, ?_, ?_⟩ <;> intro h <;>
    simp [bp_bas, h, DBGBCR_BAS_HIGH_HW, DBGBCR_BAS_LOW_HW]

/-- Witness for bp_bas_spec at the spec's three concrete inputs. -/
theorem bp_bas_spec_witness :
    bp_bas 0x1000 4 = 0x1E0 ∧ bp_bas 0x1000 2 = 0x60 ∧
      bp_bas 0x1002 2 = 0x180 :=
  ⟨(bp_bas_spec 0x1000).1, (bp_bas_spec 0x1000).2.1 (by decide),
    (bp_bas_spec 0x1002).2.2 (by decide)⟩

/-- Claim C8: when the DBGDSCR read of cortexa_halt_poll raises a
timeout exception the call returns RUNNING with no other state change;
when it raises a bus error the call frees the target list and returns
ERROR. -/
theorem cortexa_halt_poll_exception_spec (bwList : List Breakwatch)
    (watch : Option Nat) :
    cortexa_halt_poll .timeout bwList watch =
      { reason := .running, watch := watch, regsRead := false,
        listFreed := false, itrenRestored := false } ∧
    cortexa_halt_poll .busError bwList watch =
      { reason := .error, watch := watch, regsRead := false,
        listFreed := true, itrenRestored := false } :=
  ⟨rfl, rfl⟩

end Cortexa

namespace Watchdog

/-- Claim C3: with an attached target, crash_watchdog_poll does nothing
on RUNNING or ERROR, and for every other halt reason dumps core, resets
and resumes (step = false), in that order, once each. -/
theorem crash_watchdog_poll_spec (reason : Cortexa.TargetHaltReason) :
    ((reason = .running ∨ reason = .error) →
      crash_watchdog_poll true reason = []) ∧
    (reason ≠ .running → reason ≠ .error →
      crash_watchdog_poll true reason =
        [.coreDump, .targetReset, .haltResume false]) := by
  cases reason <;> exact ⟨by decide, by decide⟩

/-- Witness for crash_watchdog_poll_spec at FAULT and RUNNING. -/
theorem crash_watchdog_poll_spec_witness :
    crash_watchdog_poll true .fault =
      [.coreDump, .targetReset, .haltResume false] ∧
    crash_watchdog_poll true .running = [] :=
  ⟨(crash_watchdog_poll_spec .fault).2 (by decide) (by decide),
    (crash_watchdog_poll_spec .running).1 (Or.inl rfl)⟩

end Watchdog

namespace Coredump

/-- Claim C2 (code bug): the ARM_vfp extraction of zynq_amp_core_dump
reads entirely outside the 72-byte `uint32_t regs[18]` buffer — both
the 4-byte FPSCR memcpy (from byte offset 288) and the 256-byte
d-register memcpy (from byte offset 304) — so the note cannot contain
the captured FPSCR and d0..d15. -/
theorem zynq_vfp_extraction_oob (regsBytes : List Nat)
    (h : regsBytes.length = regs_buf_bytes) :
    zynq_vfp_sr_bytes regsBytes = none ∧
    zynq_vfp_d_bytes regsBytes = none := by
  unfold zynq_vfp_sr_bytes zynq_vfp_d_bytes memcpy_src
  rw [h]
  constructor <;>
    simp [vfp_sr_src_off, vfp_d_src_off, vfp_d_src_len, regs_buf_bytes]

/-- Witness for zynq_vfp_extraction_oob on the all-zero register
snapshot. -/
theorem zynq_vfp_extraction_oob_witness :
    zynq_vfp_sr_bytes (List.replicate 72 0) = none ∧
    zynq_vfp_d_bytes (List.replicate 72 0) = none :=
  zynq_vfp_extraction_oob (List.replicate 72 0) (by decide)

/-- Claim C1, as stated, fails: core_add_ph accepts an arbitrary
p_type, so a builder sequence whose core_add_ph call itself records a
PT_NOTE header makes core_dump emit two PT_NOTE program headers, not
exactly one. -/
theorem core_dump_pt_note_counterexample :
    ((core_dump (build 0x28 [CoreOp.addPh PT_NOTE 0 [] 0])).phdrs.countP
      (fun p => p.1.p_type == PT_NOTE)) = 2 ∧
    ¬ ((core_dump (build 0x28 [CoreOp.addPh PT_NOTE 0 [] 0])).phdrs.countP
      (fun p => p.1.p_type == PT_NOTE)) = 1 :=
  ⟨by decide, by decide⟩

/-- Claim C1 (amended: the caller's core_add_ph calls must not
themselves use p_type = PT_NOTE): for every corefile emitted by
core_dump from a sequence of core_add_ph and core_note_add calls
within the MAX_SEGMENTS limit, the written file has
e_phoff = e_ehsize; every program header has p_filesz = p_memsz; the
first p_offset is e_ehsize + e_phnum * e_phentsize and each next
p_offset is the previous p_offset plus the previous p_filesz; and
exactly one PT_NOTE program header exists, appended last, pointing at
the assembled note blob. -/
theorem core_dump_emit_invariants (machine : Nat) (ops : List CoreOp)
    (hseg : (build machine ops).phdrs.length + 1 ≤ MAX_SEGMENTS)
    (hops : ∀ op ∈ ops, op.phType ≠ some PT_NOTE) :
    (core_dump (build machine ops)).e_phoff
      = (core_dump (build machine ops)).e_ehsize ∧
    (∀ p ∈ (core_dump (build machine ops)).phdrs,
      p.1.p_filesz = p.1.p_memsz) ∧
    ((core_dump (build machine ops)).phdrs[0]?).map (fun p => p.1.p_offset)
      = some ((core_dump (build machine ops)).e_ehsize
        + (core_dump (build machine ops)).e_phentsize
          * (core_dump (build machine ops)).phdrs.length) ∧
    (∀ i p q, (core_dump (build machine ops)).phdrs[i]? = some p →
      (core_dump (build machine ops)).phdrs[i + 1]? = some q →
      q.1.p_offset = p.1.p_offset + p.1.p_filesz) ∧
    (∃ pre notep, (core_dump (build machine ops)).phdrs = pre ++ [notep] ∧
      (∀ p ∈ pre, p.1.p_type ≠ PT_NOTE) ∧
      notep.1.p_type = PT_NOTE ∧
      notep.1.p_filesz = (build machine ops).note.length ∧
      notep.2 = (build machine ops).note) := by
  have hphoff : (build machine ops).e_phoff = ELF32_EHSIZE :=
    (foldl_applyOp_fields ops (core_new machine)).1
  have hehsize : (build machine ops).e_ehsize = ELF32_EHSIZE :=
    (foldl_applyOp_fields ops (core_new machine)).2.1
  have hmem : ∀ p ∈ (build machine ops).phdrs, p.1.p_filesz = p.1.p_memsz :=
    foldl_applyOp_memsz ops (core_new machine)
      (by intro p hp; simp [core_new] at hp)
  have htype : ∀ p ∈ (build machine ops).phdrs, p.1.p_type ≠ PT_NOTE :=
    foldl_applyOp_types ops (core_new machine) hops
      (by intro p hp; simp [core_new] at hp)
  refine ⟨?_, ?_, ?_, ?_, ?_⟩
  · show (build machine ops).e_phoff = (build machine ops).e_ehsize
    rw [hphoff, hehsize]
  · simp only [core_dump, core_add_ph]
    intro p hp
    obtain ⟨q, hq, _, hf, hm, _⟩ := assign_offsets_mem _ _ p hp
    rw [hf, hm]
    rcases List.mem_append.mp hq with h1 | h1
    · exact hmem q h1
    · rw [List.mem_singleton.mp h1]
  · simp only [core_dump, core_add_ph]
    rw [assign_offsets_getElem, Option.map_map, assign_offsets_length]
    rcases hl : (build machine ops).phdrs with _ | ⟨a, t⟩ <;>
      simp [sumFilesz_nil]
  · simp only [core_dump, core_add_ph]
    intro i p q hp hq
    rw [assign_offsets_getElem] at hp hq
    obtain ⟨u, hu, hup⟩ := Option.map_eq_some'.mp hp
    obtain ⟨v, hv, hvq⟩ := Option.map_eq_some'.mp hq
    subst hup
    subst hvq
    simp only
    rw [sumFilesz_take_succ _ i u hu]
    omega
  · simp only [core_dump, core_add_ph]
    rw [assign_offsets_append]
    refine ⟨_, _, rfl, ?_, rfl, rfl, rfl⟩
    intro p hp
    obtain ⟨q, hq, ht, _, _, _⟩ := assign_offsets_mem _ _ p hp
    rw [ht]
    exact htype q hq

/-- Witness for core_dump_emit_invariants: one PT_LOAD of 3 bytes; the
written file has e_phoff = e_ehsize and first
p_offset = 52 + 2*32 = 116. -/
theorem core_dump_emit_invariants_witness :
    (core_dump (build 0x28 [CoreOp.addPh PT_LOAD 0x1000 [7, 7, 7] 3])).e_phoff
      = (core_dump (build 0x28
          [CoreOp.addPh PT_LOAD 0x1000 [7, 7, 7] 3])).e_ehsize ∧
    ((core_dump (build 0x28
        [CoreOp.addPh PT_LOAD 0x1000 [7, 7, 7] 3])).phdrs[0]?).map
      (fun p => p.1.p_offset) = some 116 :=
  ⟨(core_dump_emit_invariants 0x28 [CoreOp.addPh PT_LOAD 0x1000 [7, 7, 7] 3]
      (by decide) (by decide)).1, by decide⟩

end Coredump

namespace Cortexa

/-- Claim C5: cortexa_slow_mem_read reads
ceil((len + (src&3) + 3)/4) words from DBGDTRTX after one discarded
initial read (plus the one drain read when no sticky abort is seen),
and copies exactly len bytes into dest starting at byte offset src&3 of
the internal word buffer.  The misaligned 5-byte read at src=0x10000003
of the spec's scenario 5 is in the witness. -/
theorem cortexa_slow_mem_read_spec (src len : Nat) (stream : List Nat)
    (sdabort : Bool)
    (h : (len + (src &&& 3) + 3) / 4 + 1 ≤ stream.length) :
    ((stream.drop 1).take ((len + (src &&& 3) + 3) / 4)).length
      = (len + (src &&& 3) + 3) / 4 ∧
    (cortexa_slow_mem_read src len stream sdabort).dtrtxReads
      = 1 + (len + (src &&& 3) + 3) / 4 + (if sdabort then 0 else 1) ∧
    (cortexa_slow_mem_read src len stream sdabort).dest.length = len ∧
    (∀ k, k < len →
      (cortexa_slow_mem_read src len stream sdabort).dest[k]? =
        ((((stream.drop 1).take ((len + (src &&& 3) + 3) / 4)).map
          word_le_bytes).flatten)[(src &&& 3) + k]?) := by
  have hm : src &&& 3 ≤ 3 := Nat.and_le_right
  have hbuf : ((stream.drop 1).take ((len + (src &&& 3) + 3) / 4)).length
      = (len + (src &&& 3) + 3) / 4 := by
    rw [List.length_take, List.length_drop]
    omega
  have hbytes : ((((stream.drop 1).take ((len + (src &&& 3) + 3) / 4)).map
      word_le_bytes).flatten).length = 4 * ((len + (src &&& 3) + 3) / 4) := by
    rw [List.length_flatten, List.map_map]
    have : (List.length ∘ word_le_bytes) =
        (fun _ : Nat => 4) := by
      funext w; rfl
    rw [this, List.map_const', List.sum_replicate, hbuf]
    simp [Nat.mul_comm]
  have hcap : len + (src &&& 3) ≤ 4 * ((len + (src &&& 3) + 3) / 4) := by
    omega
  refine ⟨hbuf, rfl, ?_, ?_⟩
  · show ((_ : List Nat).take len).length = len
    rw [List.length_take, List.length_drop, hbytes]
    omega
  · intro k hk
    show (((_ : List Nat).drop (src &&& 3)).take len)[k]? = _
    rw [List.getElem?_take_of_lt hk, List.getElem?_drop]

/-- Witness for cortexa_slow_mem_read_spec: the spec's scenario 5
(5 bytes from 0x10000003, a 2-word buffer, bytes at offsets 3..7). -/
theorem cortexa_slow_mem_read_spec_witness :
    (cortexa_slow_mem_read 0x10000003 5
      [0xdeadbeef, 0x03020100, 0x07060504] false).dest.length = 5 ∧
    (cortexa_slow_mem_read 0x10000003 5
      [0xdeadbeef, 0x03020100, 0x07060504] false).dest = [3, 4, 5, 6, 7] ∧
    (cortexa_slow_mem_read 0x10000003 5
      [0xdeadbeef, 0x03020100, 0x07060504] false).dtrtxReads = 4 :=
  ⟨(cortexa_slow_mem_read_spec 0x10000003 5
      [0xdeadbeef, 0x03020100, 0x07060504] false (by decide)).2.2.1,
    by decide, by decide⟩

theorem wcr_bas_of_size_none (s : Nat) (h1 : s ≠ 1) (h2 : s ≠ 2)
    (h4 : s ≠ 4) : wcr_bas_of_size s = none := by
  rcases s with _ | _ | _ | _ | _ | n
  · rfl
  · exact absurd rfl h1
  · exact absurd rfl h2
  · rfl
  · exact absurd rfl h4
  · rfl

/-- Claim C6: for a hard-breakpoint record, cortexa_breakwatch_set
returns -1 on a size other than 2 or 4 or when no slot is free;
otherwise it takes the lowest free slot i, sets bit i of the in-use
mask (keeping the mask inside [0, hw_breakpoint_max)), records i in
bw->reserved[0], writes DBGBVR(i) = PA & ~3 and
DBGBCR(i) = BAS(PA, size) | EN, and caches the values when i = 0. -/
theorem cortexa_breakwatch_set_hard_spec (priv : CortexaPriv)
    (bw : Breakwatch) (par : Nat) (i : Nat)
    (htype : bw.type = .breakHard)
    (hsub : priv.hw_breakpoint_mask < 2 ^ priv.hw_breakpoint_max)
    (hfind : find_free_slot priv.hw_breakpoint_mask priv.hw_breakpoint_max = i) :
    ((bw.size ≠ 4 ∧ bw.size ≠ 2) →
      cortexa_breakwatch_set priv bw par =
        { ret := -1, priv := priv, reserved0 := none, writes := [] }) ∧
    ((bw.size = 4 ∨ bw.size = 2) → i = priv.hw_breakpoint_max →
      cortexa_breakwatch_set priv bw par =
        { ret := -1, priv := priv, reserved0 := none, writes := [] }) ∧
    ((bw.size = 4 ∨ bw.size = 2) → i ≠ priv.hw_breakpoint_max →
      i < priv.hw_breakpoint_max ∧
      priv.hw_breakpoint_mask.testBit i = false ∧
      (∀ j, j < i → priv.hw_breakpoint_mask.testBit j = true) ∧
      (cortexa_breakwatch_set priv bw par).ret = 0 ∧
      (cortexa_breakwatch_set priv bw par).reserved0 = some i ∧
      (cortexa_breakwatch_set priv bw par).priv.hw_breakpoint_mask
        = priv.hw_breakpoint_mask ||| (1 <<< i) ∧
      (cortexa_breakwatch_set priv bw par).priv.hw_breakpoint_mask
        < 2 ^ priv.hw_breakpoint_max ∧
      (cortexa_breakwatch_set priv bw par).writes
        = [DbgWrite.bvr i (va_to_pa_result par bw.addr &&& (M32 - 4)),
           DbgWrite.bcr i
             (bp_bas (va_to_pa_result par bw.addr) bw.size ||| DBGBCR_EN)] ∧
      (i = 0 →
        (cortexa_breakwatch_set priv bw par).priv.bcr0
          = bp_bas (va_to_pa_result par bw.addr) bw.size ||| DBGBCR_EN ∧
        (cortexa_breakwatch_set priv bw par).priv.bvr0
          = va_to_pa_result par bw.addr &&& (M32 - 4))) := by
  obtain ⟨ty, baddr, bsize⟩ := bw
  cases htype
  have hbound := find_free_from_bounds priv.hw_breakpoint_mask
    priv.hw_breakpoint_max 0
  rw [show find_free_from priv.hw_breakpoint_mask 0 priv.hw_breakpoint_max
      = find_free_slot priv.hw_breakpoint_mask priv.hw_breakpoint_max
      from rfl, hfind] at hbound
  refine ⟨?_, ?_, ?_⟩
  · intro hsz
    simp [cortexa_breakwatch_set, hsz.1, hsz.2]
  · intro hsz heq
    rcases hsz with h | h <;> subst h <;>
      simp [cortexa_breakwatch_set, hfind, heq]
  · intro hsz hi
    have hlt : i < priv.hw_breakpoint_max := by omega
    have hfree : priv.hw_breakpoint_mask.testBit i = false := by
      have := find_free_from_free priv.hw_breakpoint_mask
        priv.hw_breakpoint_max 0 (by
          rw [show find_free_from priv.hw_breakpoint_mask 0
              priv.hw_breakpoint_max
              = find_free_slot priv.hw_breakpoint_mask priv.hw_breakpoint_max
              from rfl, hfind]
          omega)
      rw [show find_free_from priv.hw_breakpoint_mask 0
          priv.hw_breakpoint_max
          = find_free_slot priv.hw_breakpoint_mask priv.hw_breakpoint_max
          from rfl, hfind] at this
      exact this
    have hlow : ∀ j, j < i → priv.hw_breakpoint_mask.testBit j = true := by
      intro j hj
      exact find_free_from_lowest priv.hw_breakpoint_mask
        priv.hw_breakpoint_max 0 j (Nat.zero_le j) (by
          rw [show find_free_from priv.hw_breakpoint_mask 0
              priv.hw_breakpoint_max
              = find_free_slot priv.hw_breakpoint_mask priv.hw_breakpoint_max
              from rfl, hfind]
          exact hj)
    have hmask : priv.hw_breakpoint_mask ||| (1 <<< i)
        < 2 ^ priv.hw_breakpoint_max := by
      rw [Nat.one_shiftLeft]
      exact Nat.or_lt_two_pow hsub
        (Nat.pow_lt_pow_right (by norm_num) hlt)
    rcases hsz with h | h <;> subst h <;>
      exact ⟨hlt, hfree, hlow, by simp [cortexa_breakwatch_set, hfind, hi],
        by simp [cortexa_breakwatch_set, hfind, hi],
        by simp [cortexa_breakwatch_set, hfind, hi],
        by simp [cortexa_breakwatch_set, hfind, hi, hmask],
        by simp [cortexa_breakwatch_set, hfind, hi],
        fun h0 => by
          subst h0
          exact ⟨by simp [cortexa_breakwatch_set, hfind, hi],
            by simp [cortexa_breakwatch_set, hfind, hi]⟩⟩

/-- Witness for cortexa_breakwatch_set_hard_spec: mask 0b11 with 6
slots allocates slot 2; PAR = 0x5000 for address 0x1002 with size 2
programs BVR(2) = 0x5000 and BCR(2) = BAS_HIGH_HW | EN = 0x181. -/
theorem cortexa_breakwatch_set_hard_spec_witness :
    (cortexa_breakwatch_set ⟨6, 3, 0, 0, 4, 0, false⟩
      ⟨.breakHard, 0x1002, 2⟩ 0x5000).ret = 0 ∧
    (cortexa_breakwatch_set ⟨6, 3, 0, 0, 4, 0, false⟩
      ⟨.breakHard, 0x1002, 2⟩ 0x5000).writes
      = [DbgWrite.bvr 2 0x5000, DbgWrite.bcr 2 0x181] :=
  ⟨((cortexa_breakwatch_set_hard_spec ⟨6, 3, 0, 0, 4, 0, false⟩
      ⟨.breakHard, 0x1002, 2⟩ 0x5000 2 rfl (by decide) (by decide)).2.2
      (Or.inr rfl) (by decide)).2.2.2.1, by decide⟩

/-- Claim C7: a successful watchpoint set programs
WCR = PAC_ANY | EN | (BAS-for-size shifted left by addr & 3) | LSC-for-kind
and WVR = addr & ~3.  The kind=write, size=2, addr=0x20000002 instance
(WVR = 0x20000000) is in the witness. -/
theorem cortexa_breakwatch_set_watch_spec (priv : CortexaPriv)
    (bw : Breakwatch) (par : Nat) (i B L : Nat)
    (hB : bw.size = 1 ∧ B = DBGWCR_BAS_BYTE ∨
      bw.size = 2 ∧ B = DBGWCR_BAS_HALFWORD ∨
      bw.size = 4 ∧ B = DBGWCR_BAS_WORD)
    (hL : bw.type = .watchRead ∧ L = DBGWCR_LSC_LOAD ∨
      bw.type = .watchWrite ∧ L = DBGWCR_LSC_STORE ∨
      bw.type = .watchAccess ∧ L = DBGWCR_LSC_ANY)
    (hfind : find_free_slot priv.hw_watchpoint_mask priv.hw_watchpoint_max = i)
    (hi : i ≠ priv.hw_watchpoint_max) :
    (cortexa_breakwatch_set priv bw par).ret = 0 ∧
    (cortexa_breakwatch_set priv bw par).writes
      = [DbgWrite.wcr i ((DBGWCR_PAC_ANY ||| DBGWCR_EN) |||
          (B <<< (bw.addr &&& 3)) ||| L),
         DbgWrite.wvr i (bw.addr &&& (M32 - 4))] := by
  obtain ⟨ty, baddr, bsize⟩ := bw
  rcases hB with ⟨hs, hb⟩ | ⟨hs, hb⟩ | ⟨hs, hb⟩ <;>
    rcases hL with ⟨ht, hl⟩ | ⟨ht, hl⟩ | ⟨ht, hl⟩ <;>
      cases hs <;> cases hb <;> cases ht <;> cases hl <;>
        exact ⟨by simp [cortexa_breakwatch_set, hfind, hi, wcr_bas_of_size,
            wcr_lsc_of_type],
          by simp [cortexa_breakwatch_set, hfind, hi, wcr_bas_of_size,
            wcr_lsc_of_type]⟩

/-- Witness for cortexa_breakwatch_set_watch_spec: kind=write, size=2,
addr=0x20000002 programs WCR = 0x197 and WVR = 0x20000000. -/
theorem cortexa_breakwatch_set_watch_spec_witness :
    (cortexa_breakwatch_set ⟨6, 0, 0, 0, 4, 0, false⟩
      ⟨.watchWrite, 0x20000002, 2⟩ 0).ret = 0 ∧
    (cortexa_breakwatch_set ⟨6, 0, 0, 0, 4, 0, false⟩
      ⟨.watchWrite, 0x20000002, 2⟩ 0).writes
      = [DbgWrite.wcr 0 ((DBGWCR_PAC_ANY ||| DBGWCR_EN) |||
          (DBGWCR_BAS_HALFWORD <<< (0x20000002 &&& 3)) ||| DBGWCR_LSC_STORE),
         DbgWrite.wvr 0 (0x20000002 &&& (M32 - 4))] ∧
    (DBGWCR_PAC_ANY ||| DBGWCR_EN) |||
      (DBGWCR_BAS_HALFWORD <<< (0x20000002 &&& 3)) ||| DBGWCR_LSC_STORE
      = 0x197 ∧
    0x20000002 &&& (M32 - 4) = 0x20000000 :=
  ⟨(cortexa_breakwatch_set_watch_spec ⟨6, 0, 0, 0, 4, 0, false⟩
      ⟨.watchWrite, 0x20000002, 2⟩ 0 0 DBGWCR_BAS_HALFWORD DBGWCR_LSC_STORE
      (Or.inr (Or.inl ⟨rfl, rfl⟩)) (Or.inr (Or.inl ⟨rfl, rfl⟩))
      (by decide) (by decide)).1,
    (cortexa_breakwatch_set_watch_spec ⟨6, 0, 0, 0, 4, 0, false⟩
      ⟨.watchWrite, 0x20000002, 2⟩ 0 0 DBGWCR_BAS_HALFWORD DBGWCR_LSC_STORE
      (Or.inr (Or.inl ⟨rfl, rfl⟩)) (Or.inr (Or.inl ⟨rfl, rfl⟩))
      (by decide) (by decide)).2,
    by decide, by decide⟩

/-- Claim C10: a watch-kind set with a free slot but a size outside
{1,2,4} returns -1 after already setting the allocated slot's bit in
the in-use mask and storing the slot in bw->reserved[0], with no
WCR/WVR write — the slot stays marked in use despite the failure. -/
theorem cortexa_breakwatch_set_watch_size_leak (priv : CortexaPriv)
    (bw : Breakwatch) (par : Nat) (i : Nat)
    (hty : bw.type = .watchWrite ∨ bw.type = .watchRead ∨
      bw.type = .watchAccess)
    (hsz : bw.size ≠ 1 ∧ bw.size ≠ 2 ∧ bw.size ≠ 4)
    (hfind : find_free_slot priv.hw_watchpoint_mask priv.hw_watchpoint_max = i)
    (hi : i ≠ priv.hw_watchpoint_max) :
    (cortexa_breakwatch_set priv bw par).ret = -1 ∧
    (cortexa_breakwatch_set priv bw par).reserved0 = some i ∧
    (cortexa_breakwatch_set priv bw par).priv.hw_watchpoint_mask
      = priv.hw_watchpoint_mask ||| (1 <<< i) ∧
    ((cortexa_breakwatch_set priv bw par).priv.hw_watchpoint_mask).testBit i
      = true ∧
    (cortexa_breakwatch_set priv bw par).writes = [] := by
  obtain ⟨ty, baddr, bsize⟩ := bw
  obtain ⟨h1, h2, h4⟩ := hsz
  have hbas := wcr_bas_of_size_none bsize h1 h2 h4
  rcases hty with h | h | h <;> cases h <;>
    simp [cortexa_breakwatch_set, hfind, hi, hbas, Nat.testBit_or,
      Nat.one_shiftLeft, Nat.testBit_two_pow_self]

/-- Witness for cortexa_breakwatch_set_watch_size_leak: size 3 with an
empty mask leaks slot 0. -/
theorem cortexa_breakwatch_set_watch_size_leak_witness :
    (cortexa_breakwatch_set ⟨6, 0, 0, 0, 4, 0, false⟩
      ⟨.watchAccess, 0x1000, 3⟩ 0).ret = -1 ∧
    (cortexa_breakwatch_set ⟨6, 0, 0, 0, 4, 0, false⟩
      ⟨.watchAccess, 0x1000, 3⟩ 0).reserved0 = some 0 ∧
    (cortexa_breakwatch_set ⟨6, 0, 0, 0, 4, 0, false⟩
      ⟨.watchAccess, 0x1000, 3⟩ 0).writes = [] :=
  ⟨(cortexa_breakwatch_set_watch_size_leak ⟨6, 0, 0, 0, 4, 0, false⟩
      ⟨.watchAccess, 0x1000, 3⟩ 0 0 (Or.inr (Or.inr rfl))
      ⟨by decide, by decide, by decide⟩ (by decide) (by decide)).1,
    (cortexa_breakwatch_set_watch_size_leak ⟨6, 0, 0, 0, 4, 0, false⟩
      ⟨.watchAccess, 0x1000, 3⟩ 0 0 (Or.inr (Or.inr rfl))
      ⟨by decide, by decide, by decide⟩ (by decide) (by decide)).2.1,
    (cortexa_breakwatch_set_watch_size_leak ⟨6, 0, 0, 0, 4, 0, false⟩
      ⟨.watchAccess, 0x1000, 3⟩ 0 0 (Or.inr (Or.inr rfl))
      ⟨by decide, by decide, by decide⟩ (by decide) (by decide)).2.2.2.2⟩

end Cortexa

end BlackMagic
